import Mathlib

/-!
Shallow embedding of zrender's `graphic/Path` module (`src/graphic/Path.js`):
the Path entity's dirty/cache protocol, bounding-rect computation, hit
testing, dirty propagation, the shape setter and the extend factory.

JS numbers are modelled as exact rationals (reals where a square root
appears).  External collaborators — the PathProxy geometry buffer, the
contain predicates, `BoundingRect.contain`, `transformCoordToLocal` and the
canvas drawing context — are modelled as an explicit environment of
functions, and canvas-context side effects as an event trace.
-/

namespace ZPath

/-- A paint value: JS `null`/`undefined`, the literal string `'none'`,
a color string, or a `Gradient` object (identified by a tag). -/
inductive Paint where
  | null
  | noneLit
  | color (c : String)
  | gradient (g : Nat)
deriving DecidableEq

/-- Truthiness test shared by `pathHasFill` / `pathHasStroke`:
`paint != null && paint !== 'none'`. -/
def Paint.isActive : Paint → Bool
  | .null => false
  | .noneLit => false
  | _ => true

/-- JS `paint instanceof Gradient`. -/
def Paint.isGradient : Paint → Bool
  | .gradient _ => true
  | _ => false

/-- Shape parameter table (`this.shape`), an ordered key/value record. -/
abbrev ShapeMap := List (String × ℚ)

/-- The style fields `Path` reads: fill/stroke paints, `lineWidth`,
`lineDash`, `lineDashOffset` and the optional `text` attachment. -/
structure Style where
  fill : Paint
  stroke : Paint
  lineWidth : ℚ
  lineDash : Option (List ℚ)
  lineDashOffset : ℚ
  text : Option String
deriving DecidableEq

/-- `function pathHasFill(style)`: fill non-null and not `'none'`. -/
def pathHasFill (style : Style) : Bool :=
  style.fill.isActive

/-- `function pathHasStroke(style)`: stroke non-null, not `'none'`,
and `style.lineWidth > 0`. -/
def pathHasStroke (style : Style) : Bool :=
  style.stroke.isActive && decide (0 < style.lineWidth)

/-- The linear part of a canvas transform matrix `m = [a, b, c, d, tx, ty]`;
`m0 = a`, `m1 = b`, `m2 = c`, `m3 = d` (translation is irrelevant here). -/
structure Mat where
  m0 : ℚ
  m1 : ℚ
  m2 : ℚ
  m3 : ℚ
deriving DecidableEq

/-- `function getLineScale(m)`: returns
`m && abs(m[0]-1) > 1e-10 && abs(m[3]-1) > 1e-10
  ? Math.sqrt(abs(m[0]*m[3] - m[2]*m[1])) : 1`. -/
noncomputable def getLineScale (m : Option Mat) : ℝ :=
  match m with
  | some mv =>
    if |mv.m0 - 1| > 1 / 10 ^ 10 ∧ |mv.m3 - 1| > 1 / 10 ^ 10 then
      Real.sqrt ((|mv.m0 * mv.m3 - mv.m2 * mv.m1| : ℚ) : ℝ)
    else 1
  | none => 1

/-- Axis-aligned bounding rectangle.  `BoundingRect` is an external
collaborator; only its four fields are needed here. -/
structure Rect where
  x : ℝ
  y : ℝ
  width : ℝ
  height : ℝ

/-- Abstract state of the owned `PathProxy` geometry buffer: which shape
snapshot the recorded commands were last built from (`none` = fresh, never
built), and the dash configuration recorded into the buffer when dashes must
be software-rendered.  `beginPath` resets both. -/
structure Buf where
  builtFrom : Option (Option ShapeMap)
  dash : Option (List ℚ × ℚ)
deriving DecidableEq

/-- The fresh buffer produced by `PathProxy.beginPath`. -/
def Buf.fresh : Buf := { builtFrom := none, dash := none }

/-- The per-Path mutable fields of one Path entity: `shape`, `style`,
`transform` (read-only here, owned by the base abstraction), `__dirtyPath`,
`__dirty`, whether a `__zr` repaint scheduler is attached, the owned
geometry buffer `this.path`, and the cached bounding rect `this._rect`. -/
structure PathCore where
  shape : Option ShapeMap
  style : Style
  transform : Option Mat
  dirtyPath : Bool
  dirtyFlag : Bool
  hasZr : Bool
  buffer : Buf
  rectCache : Option Rect

/-- A Path together with its optional `__clipTarget` back-reference (the
entity that uses this Path as a clip region; modelled one level deep) and a
counter of `__zr.refresh()` notifications issued so far. -/
structure PathState where
  core : PathCore
  clipTarget : Option PathCore
  refreshCount : Nat

/-- External collaborators, fixed for a run: whether the canvas context has
native `setLineDash`, the buffer's raw bounding rect (`path.getBoundingRect`),
`BoundingRect.prototype.contain`, the two contain predicates from
`contain/path`, and `transformCoordToLocal` from the base abstraction. -/
structure Env where
  ctxHasSetLineDash : Bool
  proxyRect : Buf → Rect
  rectContain : Rect → ℝ → ℝ → Bool
  containStroke : Buf → ℝ → ℝ → ℝ → Bool
  containFill : Buf → ℝ → ℝ → Bool
  transformCoordToLocal : Option Mat → ℝ → ℝ → ℝ × ℝ

/-- Observable side effects of one `brush` call, in program order. -/
inductive Ev where
  | save
  | updateGradientFill
  | updateGradientStroke
  | styleBind
  | setTransform
  | beginPathProxy
  | setProxyLineDash
  | buildPath
  | beginPathCtx
  | rebuildPath
  | fill
  | setCtxLineDash
  | stroke
  | drawRectText
  | restore
deriving DecidableEq

/-- The `dirty` body applied to one entity's fields, with the already
defaulted `dirtyPath` argument: `if (dirtyPath) { __dirtyPath = dirtyPath;
_rect = null; } __dirty = true;`. -/
def dirtyCore (c : PathCore) (dirtyPath : Bool) : PathCore :=
  let c1 := if dirtyPath then { c with dirtyPath := true, rectCache := none } else c
  { c1 with dirtyFlag := true }

/-- `Path.prototype.dirty(dirtyPath)`; `arg = none` models a call with no
arguments, which defaults `dirtyPath` to `true`.  Notifies `__zr` when
attached, and recursively calls `__clipTarget.dirty()` (no arguments) when
the clip back-reference is set. -/
def Path.dirty (s : PathState) (arg : Option Bool) : PathState :=
  let dp := arg.getD true
  let targetRefresh : Nat :=
    match s.clipTarget with
    | some t => if t.hasZr then 1 else 0
    | none => 0
  { core := dirtyCore s.core dp
    clipTarget := s.clipTarget.map (fun t => dirtyCore t true)
    refreshCount :=
      s.refreshCount + (if s.core.hasZr then 1 else 0) + targetRefresh }

/-- JS `shape[name] = value` on an ordered record: update the first binding
of the key, or append a new binding. -/
def shapeSet : ShapeMap → String → ℚ → ShapeMap
  | [], k, v => [(k, v)]
  | kv :: rest, k, v =>
    if kv.1 = k then (k, v) :: rest else kv :: shapeSet rest k v

/-- The argument of `setShape`: either a single key/value pair or an object
whose entries are merged key-by-key. -/
inductive ShapeArg where
  | kv (k : String) (v : ℚ)
  | obj (m : ShapeMap)

/-- `Path.prototype.setShape(key, value)`: no-op when `this.shape` is absent;
otherwise assigns the entries and calls `this.dirty(true)`; returns `this`. -/
def Path.setShape (s : PathState) (arg : ShapeArg) : PathState :=
  match s.core.shape with
  | none => s
  | some sh =>
    let sh' :=
      match arg with
      | .kv k v => shapeSet sh k v
      | .obj m => m.foldl (fun acc kv => shapeSet acc kv.1 kv.2) sh
    Path.dirty { s with core := { s.core with shape := some sh' } } (some true)

/-- The geometry buffer `getBoundingRect` reads raw bounds from: rebuilt
from the current shape (`path.beginPath(); this.buildPath(path, this.shape)`)
when `__dirtyPath` is set, otherwise the buffer as recorded. -/
def rectSourceBuf (c : PathCore) : Buf :=
  if c.dirtyPath then { Buf.fresh with builtFrom := some c.shape } else c.buffer

/-- `Path.prototype.getBoundingRect` acting on one entity's fields: on a
cache miss, rebuild the buffer if `__dirtyPath` (without clearing the flag),
take the raw proxy rect, and if stroke is active inflate it by
`w = max(lineWidth * lineScale, 5) / lineScale` (width/height `+= w`,
`x`/`y` `-= w/2`); cache and return. -/
noncomputable def getBoundingRectCore (env : Env) (c : PathCore) :
    Rect × PathCore :=
  match c.rectCache with
  | some r => (r, c)
  | none =>
    let buf := rectSourceBuf c
    let raw := env.proxyRect buf
    let r :=
      if pathHasStroke c.style then
        let lineScale := getLineScale c.transform
        let w := max ((c.style.lineWidth : ℝ) * lineScale) 5 / lineScale
        { x := raw.x - w / 2, y := raw.y - w / 2,
          width := raw.width + w, height := raw.height + w }
      else raw
    (r, { c with buffer := buf, rectCache := some r })

/-- `getBoundingRect` on the full state. -/
noncomputable def Path.getBoundingRect (env : Env) (s : PathState) :
    Rect × PathState :=
  let rc := getBoundingRectCore env s.core
  (rc.1, { s with core := rc.2 })

/-- The gradient-resolution block at the top of `brush`: it runs only when
`__dirtyPath` is set ("update gradient because bounding rect may changed"),
once for an active gradient fill and once for an active gradient stroke. -/
def gradientEvs (c : PathCore) : List Ev :=
  if c.dirtyPath then
    (if pathHasFill c.style && c.style.fill.isGradient then
      [Ev.updateGradientFill] else []) ++
    (if pathHasStroke c.style && c.style.stroke.isGradient then
      [Ev.updateGradientStroke] else [])
  else []

/-- The rebuild-vs-replay condition of `brush`:
`this.__dirtyPath || (lineDash && !ctxLineDash && hasStroke)`. -/
def rebuildCond (env : Env) (c : PathCore) : Bool :=
  c.dirtyPath ||
    (c.style.lineDash.isSome && !env.ctxHasSetLineDash && pathHasStroke c.style)

/-- The rebuild branch of `brush`: `path.beginPath(ctx)`, optional software
dash configuration recorded into the buffer, `this.buildPath(path, shape)`,
then clearing `__dirtyPath`. -/
def rebuildBranch (env : Env) (c : PathCore) : PathCore × List Ev :=
  let withDash :=
    if c.style.lineDash.isSome && !env.ctxHasSetLineDash then
      ({ Buf.fresh with
          dash := some (c.style.lineDash.getD [], c.style.lineDashOffset) },
        [Ev.setProxyLineDash])
    else (Buf.fresh, ([] : List Ev))
  ({ c with
      buffer := { withDash.1 with builtFrom := some c.shape },
      dirtyPath := false },
    [Ev.beginPathProxy] ++ withDash.2 ++ [Ev.buildPath])

/-- `Path.prototype.brush(ctx)`: resolves gradients (only when
`__dirtyPath`), binds style and transform, then either rebuilds the buffer
(when dirty, or when software dash stroking is needed) clearing
`__dirtyPath`, or replays the recorded buffer; then fills/strokes, and draws
the rect text (which consults `getBoundingRect`).  Returns the new state and
the event trace. -/
noncomputable def Path.brush (env : Env) (s : PathState) :
    PathState × List Ev :=
  let branch :=
    if rebuildCond env s.core then rebuildBranch env s.core
    else (s.core, [Ev.beginPathCtx, Ev.rebuildPath])
  let fillEvs : List Ev := if pathHasFill s.core.style then [Ev.fill] else []
  let ctxDashEvs : List Ev :=
    if s.core.style.lineDash.isSome && env.ctxHasSetLineDash then
      [Ev.setCtxLineDash] else []
  let strokeEvs : List Ev :=
    if pathHasStroke s.core.style then [Ev.stroke] else []
  let textStep :=
    if s.core.style.text.isSome then
      ((getBoundingRectCore env branch.1).2, [Ev.drawRectText])
    else (branch.1, ([] : List Ev))
  ({ s with core := textStep.1 },
    ([Ev.save] ++ gradientEvs s.core ++ [Ev.styleBind, Ev.setTransform]) ++
      (branch.2 ++ fillEvs ++ ctxDashEvs ++ strokeEvs ++ textStep.2 ++
        [Ev.restore]))

/-- `Path.prototype.contain(x, y)`: transform the query point into local
space, prefilter by the (possibly freshly cached) bounding rect, then test
stroke containment (with effective width
`max(lineWidth * lineScale, 5) / lineScale`) before fill containment.
Returns the verdict and the state as mutated by `getBoundingRect`. -/
noncomputable def Path.contain (env : Env) (s : PathState) (x y : ℝ) :
    Bool × PathState :=
  let lp := env.transformCoordToLocal s.core.transform x y
  let rc := getBoundingRectCore env s.core
  let style := rc.2.style
  let verdict :=
    if env.rectContain rc.1 lp.1 lp.2 then
      let pathData := rc.2.buffer
      if pathHasStroke style then
        let lineScale := getLineScale rc.2.transform
        let lw := max ((style.lineWidth : ℝ) * lineScale) 5 / lineScale
        if env.containStroke pathData lw lp.1 lp.2 then true
        else if pathHasFill style then env.containFill pathData lp.1 lp.2
        else false
      else if pathHasFill style then env.containFill pathData lp.1 lp.2
      else false
    else false
  (verdict, { s with core := rc.2 })

/-- The public operations of the claim set. -/
inductive Op where
  | brushOp
  | getRect
  | containOp (x y : ℝ)
  | setShapeOp (arg : ShapeArg)
  | dirtyOp (arg : Option Bool)

/-- One public operation as a state transformer. -/
noncomputable def step (env : Env) (s : PathState) : Op → PathState
  | .brushOp => (Path.brush env s).1
  | .getRect => (Path.getBoundingRect env s).2
  | .containOp x y => (Path.contain env s x y).2
  | .setShapeOp arg => Path.setShape s arg
  | .dirtyOp arg => Path.dirty s arg

/-- A freshly constructed Path: `__dirtyPath` starts `true` (prototype
default), no cached rect, fresh geometry buffer. -/
def construct (sh : Option ShapeMap) (st : Style) (tf : Option Mat)
    (hz : Bool) (clip : Option PathCore) : PathState :=
  { core :=
      { shape := sh, style := st, transform := tf, dirtyPath := true,
        dirtyFlag := true, hasZr := hz, buffer := Buf.fresh,
        rectCache := none }
    clipTarget := clip
    refreshCount := 0 }

/-- States reachable from construction by the public operations. -/
inductive Reachable (env : Env) : PathState → Prop
  | init (sh : Option ShapeMap) (st : Style) (tf : Option Mat) (hz : Bool)
      (clip : Option PathCore) : Reachable env (construct sh st tf hz clip)
  | next {s : PathState} (hs : Reachable env s) (op : Op) :
      Reachable env (step env s op)

/-- JS property read `shape[k]` on an ordered record: the first binding. -/
def shapeGet : ShapeMap → String → Option ℚ
  | [], _ => none
  | kv :: rest, k => if kv.1 = k then some kv.2 else shapeGet rest k

/-- JS `shape.hasOwnProperty(k)` on an ordered record. -/
def shapeHasOwn : ShapeMap → String → Bool
  | [], _ => false
  | kv :: rest, k => decide (kv.1 = k) || shapeHasOwn rest k

/-- The default-shape merge loop of the constructor produced by
`Path.extend`: for each own key of `defaultShape` in order, set it on
`thisShape` only when `thisShape` does not already have it. -/
def mergeShapeDefaults (thisShape : ShapeMap) : ShapeMap → ShapeMap
  | [] => thisShape
  | kv :: rest =>
    if shapeHasOwn thisShape kv.1 then mergeShapeDefaults thisShape rest
    else mergeShapeDefaults (thisShape ++ [kv]) rest

/-- Modelled from the spec: the base construction (`Displayable`/`Element`,
not under `src/`) copies each construction option onto the instance, so
after `Path.call(this, opts)` the instance's `shape` is the options' `shape`
mapping, absent when not supplied ("Run the base Path construction"; step 3
then merges defaults "only for keys not already present on the instance"). -/
def baseConstructShape (optsShape : Option ShapeMap) : Option ShapeMap :=
  optsShape

/-- The shape field at the end of construction of a kind produced by
`Path.extend {shape := defaultShape, ...}` with construction options whose
shape is `optsShape`: base construction, then `this.shape = this.shape || {}`
followed by the non-destructive default merge. -/
def extendConstructShape (defaultShape : Option ShapeMap)
    (optsShape : Option ShapeMap) : Option ShapeMap :=
  match defaultShape with
  | none => baseConstructShape optsShape
  | some d =>
    some (mergeShapeDefaults ((baseConstructShape optsShape).getD []) d)

/-- A concrete environment with native `setLineDash` on the context and
constant external collaborators. -/
noncomputable def envNative : Env :=
  { ctxHasSetLineDash := true
    proxyRect := fun _ => ⟨0, 0, 10, 10⟩
    rectContain := fun _ _ _ => true
    containStroke := fun _ _ _ _ => true
    containFill := fun _ _ _ => false
    transformCoordToLocal := fun _ x y => (x, y) }

/-- The same environment but without native `setLineDash` (software dash). -/
noncomputable def envSoft : Env :=
  { envNative with ctxHasSetLineDash := false }

/-- Plain-fill style: red fill, no stroke, no dash, no text. -/
def fillOnlyStyle : Style :=
  { fill := Paint.color "red", stroke := Paint.null, lineWidth := 0,
    lineDash := none, lineDashOffset := 0, text := none }

/-- Fill and stroke both active, `lineWidth = 2`, no dash, no text. -/
def fillStrokeStyle : Style :=
  { fill := Paint.color "red", stroke := Paint.color "black", lineWidth := 2,
    lineDash := none, lineDashOffset := 0, text := none }

/-- Stroke with a dash pattern set, no fill, no text. -/
def dashStrokeStyle : Style :=
  { fill := Paint.null, stroke := Paint.color "black", lineWidth := 1,
    lineDash := some [4, 2], lineDashOffset := 0, text := none }

/-- Gradient fill, no stroke, no dash, no text. -/
def gradFillStyle : Style :=
  { fill := Paint.gradient 0, stroke := Paint.null, lineWidth := 0,
    lineDash := none, lineDashOffset := 0, text := none }

/-- A concrete Path core: empty shape record, given style and dirty flag. -/
def mkCore (st : Style) (dp : Bool) : PathCore :=
  { shape := some [], style := st, transform := none, dirtyPath := dp,
    dirtyFlag := true, hasZr := false, buffer := Buf.fresh, rectCache := none }

/-- A concrete Path state around `mkCore`, without clip target. -/
def mkState (st : Style) (dp : Bool) : PathState :=
  { core := mkCore st dp, clipTarget := none, refreshCount := 0 }

/-- A concrete Path that is the clip region of another entity. -/
def clipState : PathState :=
  { core := mkCore fillOnlyStyle true
    clipTarget := some (mkCore fillOnlyStyle false)
    refreshCount := 0 }

/-- A concrete shape-less Path (`this.shape` absent). -/
def sNoShape : PathState :=
  { core := { mkCore fillOnlyStyle true with shape := none }
    clipTarget := none
    refreshCount := 0 }

theorem shapeGet_eq_none_of_not_hasOwn (t : ShapeMap) (k : String)
    (h : shapeHasOwn t k = false) : shapeGet t k = none := by
  induction t with
  | nil => rfl
  | cons kv rest ih =>
    simp only [shapeHasOwn, Bool.or_eq_false_iff, decide_eq_false_iff_not] at h
    simp only [shapeGet, if_neg h.1]
    exact ih h.2

theorem shapeGet_append_of_hasOwn (t l : ShapeMap) (k : String)
    (h : shapeHasOwn t k = true) : shapeGet (t ++ l) k = shapeGet t k := by
  induction t with
  | nil => simp [shapeHasOwn] at h
  | cons kv rest ih =>
    by_cases hk : kv.1 = k
    · simp [shapeGet, if_pos hk]
    · simp only [shapeHasOwn, Bool.or_eq_true, decide_eq_true_eq] at h
      rcases h with h | h
      · exact absurd h hk
      · simp only [List.cons_append, shapeGet, if_neg hk]
        exact ih h

theorem shapeGet_append_of_not_hasOwn (t l : ShapeMap) (k : String)
    (h : shapeHasOwn t k = false) : shapeGet (t ++ l) k = shapeGet l k := by
  induction t with
  | nil => rfl
  | cons kv rest ih =>
    simp only [shapeHasOwn, Bool.or_eq_false_iff, decide_eq_false_iff_not] at h
    simp only [List.cons_append, shapeGet, if_neg h.1]
    exact ih h.2

theorem shapeHasOwn_append (t l : ShapeMap) (k : String) :
    shapeHasOwn (t ++ l) k = (shapeHasOwn t k || shapeHasOwn l k) := by
  induction t with
  | nil => rfl
  | cons kv rest ih =>
    simp only [List.cons_append, shapeHasOwn, List.append_eq, ih, Bool.or_assoc]

theorem mergeShapeDefaults_get_of_hasOwn (d t : ShapeMap) (k : String)
    (h : shapeHasOwn t k = true) :
    shapeGet (mergeShapeDefaults t d) k = shapeGet t k := by
  induction d generalizing t with
  | nil => rfl
  | cons kv rest ih =>
    simp only [mergeShapeDefaults]
    by_cases hk : shapeHasOwn t kv.1 = true
    · rw [if_pos hk]
      exact ih t h
    · rw [if_neg hk]
      have h' : shapeHasOwn (t ++ [kv]) k = true := by
        rw [shapeHasOwn_append, h, Bool.true_or]
      rw [ih (t ++ [kv]) h']
      exact shapeGet_append_of_hasOwn t [kv] k h

theorem mergeShapeDefaults_get_of_not_hasOwn (d t : ShapeMap) (k : String)
    (h : shapeHasOwn t k = false) :
    shapeGet (mergeShapeDefaults t d) k = shapeGet d k := by
  induction d generalizing t with
  | nil => exact shapeGet_eq_none_of_not_hasOwn t k h
  | cons kv rest ih =>
    simp only [mergeShapeDefaults]
    by_cases hk : kv.1 = k
    · subst hk
      rw [if_neg (by rw [h]; exact Bool.false_ne_true)]
      have h1 : shapeHasOwn (t ++ [kv]) kv.1 = true := by
        rw [shapeHasOwn_append, shapeHasOwn, decide_eq_true rfl]
        simp
      rw [mergeShapeDefaults_get_of_hasOwn rest (t ++ [kv]) kv.1 h1,
        shapeGet_append_of_not_hasOwn t [kv] kv.1 h]
      simp [shapeGet]
    · have hget : shapeGet (kv :: rest) k = shapeGet rest k := by
        simp [shapeGet, if_neg hk]
      rw [hget]
      by_cases ht : shapeHasOwn t kv.1 = true
      · rw [if_pos ht]
        exact ih t h
      · rw [if_neg ht]
        have h' : shapeHasOwn (t ++ [kv]) k = false := by
          rw [shapeHasOwn_append, h, Bool.false_or, shapeHasOwn, shapeHasOwn,
            Bool.or_false, decide_eq_false hk]
        exact ih (t ++ [kv]) h'

theorem getBoundingRectCore_dirtyPath (env : Env) (c : PathCore) :
    (getBoundingRectCore env c).2.dirtyPath = c.dirtyPath := by
  cases h : c.rectCache <;> simp [getBoundingRectCore, h]

theorem getBoundingRectCore_style (env : Env) (c : PathCore) :
    (getBoundingRectCore env c).2.style = c.style := by
  cases h : c.rectCache <;> simp [getBoundingRectCore, h]

theorem getBoundingRectCore_transform (env : Env) (c : PathCore) :
    (getBoundingRectCore env c).2.transform = c.transform := by
  cases h : c.rectCache <;> simp [getBoundingRectCore, h]

theorem rebuildBranch_dirtyPath (env : Env) (c : PathCore) :
    (rebuildBranch env c).1.dirtyPath = false := by
  simp [rebuildBranch]

theorem rebuildBranch_style (env : Env) (c : PathCore) :
    (rebuildBranch env c).1.style = c.style := by
  simp [rebuildBranch]

theorem buildPath_mem_rebuildBranch (env : Env) (c : PathCore) :
    Ev.buildPath ∈ (rebuildBranch env c).2 := by
  simp [rebuildBranch]

theorem brushBranch_dirtyPath (env : Env) (c : PathCore) :
    (if rebuildCond env c then rebuildBranch env c
      else (c, [Ev.beginPathCtx, Ev.rebuildPath])).1.dirtyPath = false := by
  by_cases h : rebuildCond env c = true
  · rw [if_pos h]
    exact rebuildBranch_dirtyPath env c
  · rw [if_neg h]
    have h' : rebuildCond env c = false := by
      cases hb : rebuildCond env c
      · rfl
      · exact absurd hb h
    exact (Bool.or_eq_false_iff.mp h').1

theorem brushBranch_style (env : Env) (c : PathCore) :
    (if rebuildCond env c then rebuildBranch env c
      else (c, [Ev.beginPathCtx, Ev.rebuildPath])).1.style = c.style := by
  split
  · exact rebuildBranch_style env c
  · rfl

theorem brush_core_dirtyPath (env : Env) (s : PathState) :
    (Path.brush env s).1.core.dirtyPath = false := by
  simp only [Path.brush]
  split
  · rw [getBoundingRectCore_dirtyPath]
    exact brushBranch_dirtyPath env s.core
  · exact brushBranch_dirtyPath env s.core

theorem brush_core_style (env : Env) (s : PathState) :
    (Path.brush env s).1.core.style = s.core.style := by
  simp only [Path.brush]
  split
  · rw [getBoundingRectCore_style]
    exact brushBranch_style env s.core
  · exact brushBranch_style env s.core

theorem brush_trace_decomp (env : Env) (s : PathState) :
    ∃ post, (Path.brush env s).2 =
      ([Ev.save] ++ gradientEvs s.core ++ [Ev.styleBind, Ev.setTransform]) ++
        post :=
  ⟨_, rfl⟩

theorem gradientEvs_not_dirty (c : PathCore) (h : c.dirtyPath = false) :
    gradientEvs c = [] := by
  simp [gradientEvs, h]

theorem brush_trace_replay (env : Env) (s : PathState)
    (h : rebuildCond env s.core = false) :
    (Path.brush env s).2 =
      ([Ev.save] ++ [Ev.styleBind, Ev.setTransform]) ++
        ([Ev.beginPathCtx, Ev.rebuildPath] ++
          (if pathHasFill s.core.style then [Ev.fill] else []) ++
          (if s.core.style.lineDash.isSome && env.ctxHasSetLineDash then
            [Ev.setCtxLineDash] else []) ++
          (if pathHasStroke s.core.style then [Ev.stroke] else []) ++
          (if s.core.style.text.isSome then [Ev.drawRectText] else []) ++
          [Ev.restore]) := by
  have hd : s.core.dirtyPath = false := (Bool.or_eq_false_iff.mp h).1
  simp only [Path.brush, h, Bool.false_eq_true, if_false,
    gradientEvs_not_dirty s.core hd]
  split_ifs <;> simp

theorem getBoundingRect_state_core (env : Env) (s : PathState) :
    (Path.getBoundingRect env s).2.core = (getBoundingRectCore env s.core).2 :=
  rfl

theorem contain_state_core (env : Env) (s : PathState) (x y : ℝ) :
    (Path.contain env s x y).2.core = (getBoundingRectCore env s.core).2 :=
  rfl

theorem brush_trace_rebuild_mem (env : Env) (s : PathState)
    (h : rebuildCond env s.core = true) :
    Ev.buildPath ∈ (Path.brush env s).2 := by
  simp only [Path.brush, h, if_true]
  simp [List.mem_append, buildPath_mem_rebuildBranch env s.core]

theorem brush_replay_mem (env : Env) (s : PathState)
    (h : rebuildCond env s.core = false) :
    Ev.buildPath ∉ (Path.brush env s).2 ∧
      Ev.rebuildPath ∈ (Path.brush env s).2 := by
  rw [brush_trace_replay env s h]
  constructor
  · split_ifs <;> simp
  · simp

theorem ite_true_or (a b : Bool) : (if a = true then true else b) = (a || b) := by
  cases a <;> simp

/-- C2 counterexample: at the matrix `a = 1, b = c = 0, d = 3`, not both `a`
and `d` are within `1e-10` of `1`, so the claim's "otherwise" branch demands
`sqrt(|a·d − b·c|) = sqrt 3`; but the source takes the sqrt branch only when
BOTH `|a−1| > 1e-10` AND `|d−1| > 1e-10`, so `getLineScale` returns `1`,
which differs from `sqrt 3`. -/
theorem getLineScale_claim_counterexample :
    getLineScale (some ⟨1, 0, 0, 3⟩) = 1 ∧
      Real.sqrt ((|(1 : ℚ) * 3 - 0 * 0| : ℚ) : ℝ) ≠ 1 := by
  constructor
  · have h : ¬(|(1 : ℚ) - 1| > 1 / 10 ^ 10 ∧ |(3 : ℚ) - 1| > 1 / 10 ^ 10) := by
      norm_num
    simp only [getLineScale, if_neg h]
  · have h3 : ((|(1 : ℚ) * 3 - 0 * 0| : ℚ) : ℝ) = 3 := by norm_num
    rw [h3, Ne, Real.sqrt_eq_one]
    norm_num

/-- C2 amended: `getLineScale` returns `1` when the matrix is absent or when
EITHER `a` or `d` is within `1e-10` of `1` (the source requires both to differ
from 1 before taking the sqrt branch); otherwise it returns
`sqrt(|a·d − b·c|)`.  In particular it returns `1` on the identity matrix and
`2` on the matrix `a = d = 2, b = c = 0`. -/
theorem getLineScale_spec :
    getLineScale none = 1 ∧
    (∀ mv : Mat, |mv.m0 - 1| ≤ 1 / 10 ^ 10 ∨ |mv.m3 - 1| ≤ 1 / 10 ^ 10 →
      getLineScale (some mv) = 1) ∧
    (∀ mv : Mat, |mv.m0 - 1| > 1 / 10 ^ 10 → |mv.m3 - 1| > 1 / 10 ^ 10 →
      getLineScale (some mv) =
        Real.sqrt ((|mv.m0 * mv.m3 - mv.m2 * mv.m1| : ℚ) : ℝ)) ∧
    getLineScale (some ⟨1, 0, 0, 1⟩) = 1 ∧
    getLineScale (some ⟨2, 0, 0, 2⟩) = 2 := by
  refine ⟨rfl, ?_, ?_, ?_, ?_⟩
  · intro mv h
    have h' : ¬(|mv.m0 - 1| > 1 / 10 ^ 10 ∧ |mv.m3 - 1| > 1 / 10 ^ 10) := by
      rcases h with h | h
      · exact fun hc => absurd hc.1 (not_lt.mpr h)
      · exact fun hc => absurd hc.2 (not_lt.mpr h)
    simp only [getLineScale, if_neg h']
  · intro mv h0 h3
    simp only [getLineScale, if_pos (And.intro h0 h3)]
  · have h : ¬(|(1 : ℚ) - 1| > 1 / 10 ^ 10 ∧ |(1 : ℚ) - 1| > 1 / 10 ^ 10) := by
      norm_num
    simp only [getLineScale, if_pos, if_neg h]
  · have h : |(2 : ℚ) - 1| > 1 / 10 ^ 10 ∧ |(2 : ℚ) - 1| > 1 / 10 ^ 10 := by
      norm_num
    simp only [getLineScale, if_pos h]
    have h4 : ((|(2 : ℚ) * 2 - 0 * 0| : ℚ) : ℝ) = 2 ^ 2 := by norm_num
    rw [h4, Real.sqrt_sq (by norm_num : (0 : ℝ) ≤ 2)]

/-- C2 witness: the amended theorem applied at the concrete matrix
`a = 1, b = 5, c = 7, d = 9` (where `a` is within `1e-10` of `1`). -/
theorem getLineScale_spec_witness :
    getLineScale (some ⟨1, 5, 7, 9⟩) = 1 :=
  getLineScale_spec.2.1 ⟨1, 5, 7, 9⟩ (Or.inl (by norm_num))

/-- C1 amended: although `getBoundingRect` may cache a rect while
`__dirtyPath` is still true (it computes bounds without clearing the flag),
every public operation that newly sets `__dirtyPath` also clears the cached
rect in the same step: if `__dirtyPath` is false before an operation and
true after it, the cached bounding rect is null after it. -/
theorem dirtyPath_set_clears_rectCache (env : Env) (s : PathState) (op : Op)
    (h1 : s.core.dirtyPath = false)
    (h2 : (step env s op).core.dirtyPath = true) :
    (step env s op).core.rectCache = none := by
  cases op with
  | brushOp =>
    simp only [step] at h2
    rw [brush_core_dirtyPath] at h2
    exact absurd h2 (by decide)
  | getRect =>
    simp only [step, getBoundingRect_state_core,
      getBoundingRectCore_dirtyPath, h1] at h2
    exact absurd h2 (by decide)
  | containOp x y =>
    simp only [step, contain_state_core,
      getBoundingRectCore_dirtyPath, h1] at h2
    exact absurd h2 (by decide)
  | setShapeOp arg =>
    simp only [step, Path.setShape] at h2 ⊢
    cases hsh : s.core.shape with
    | none =>
      rw [hsh] at h2
      simp at h2
      rw [h1] at h2
      exact absurd h2 (by decide)
    | some sh =>
      simp [Path.dirty, dirtyCore]
  | dirtyOp arg =>
    simp only [step] at h2 ⊢
    match arg with
    | none => simp [Path.dirty, dirtyCore]
    | some true => simp [Path.dirty, dirtyCore]
    | some false =>
      simp only [Path.dirty, dirtyCore, Option.getD, Bool.false_eq_true,
        if_false] at h2
      rw [h1] at h2
      exact absurd h2 (by decide)

/-- C1 witness: the amended invariant applied at a clean concrete state and
the no-argument `dirty()` operation, which sets `__dirtyPath` and clears the
cached rect. -/
theorem dirtyPath_set_clears_rectCache_witness :
    (step envNative (mkState fillOnlyStyle false)
      (Op.dirtyOp none)).core.rectCache = none :=
  dirtyPath_set_clears_rectCache envNative (mkState fillOnlyStyle false)
    (Op.dirtyOp none) rfl rfl

/-- C1 counterexample: a freshly constructed Path (so `__dirtyPath = true`)
reaches, after one `getBoundingRect` call, a state whose cached bounding
rect is non-null while `__dirtyPath` is still true — `getBoundingRect`
rebuilds and caches without clearing the dirty-path flag. -/
theorem rect_cached_while_dirty_counterexample :
    Reachable envNative (step envNative
      (construct (some []) fillOnlyStyle none false none) Op.getRect) ∧
    (step envNative (construct (some []) fillOnlyStyle none false none)
      Op.getRect).core.rectCache.isSome = true ∧
    (step envNative (construct (some []) fillOnlyStyle none false none)
      Op.getRect).core.dirtyPath = true :=
  ⟨Reachable.next (Reachable.init (some []) fillOnlyStyle none false none)
      Op.getRect, rfl, rfl⟩

/-- C3 amended: in every `brush` invocation in which the path is dirty at
entry, the gradient resolution of each active gradient fill/stroke happens
before the rebuild/replay branch executes: the trace splits into a prefix
containing the gradient-update events (whenever the corresponding paint is
an active gradient) and containing none of the branch events.  On cache-hit
paints (path not dirty) the resolver is not invoked at all (see the
counterexample). -/
theorem brush_gradient_before_rebuild (env : Env) (s : PathState)
    (hdirty : s.core.dirtyPath = true) :
    ∃ pre post, (Path.brush env s).2 = pre ++ post ∧
      Ev.beginPathProxy ∉ pre ∧ Ev.buildPath ∉ pre ∧
      Ev.beginPathCtx ∉ pre ∧ Ev.rebuildPath ∉ pre ∧
      ((pathHasFill s.core.style && s.core.style.fill.isGradient) = true →
        Ev.updateGradientFill ∈ pre) ∧
      ((pathHasStroke s.core.style && s.core.style.stroke.isGradient) = true →
        Ev.updateGradientStroke ∈ pre) := by
  obtain ⟨post, hp⟩ := brush_trace_decomp env s
  refine ⟨[Ev.save] ++ gradientEvs s.core ++ [Ev.styleBind, Ev.setTransform],
    post, hp, ?_, ?_, ?_, ?_, ?_, ?_⟩
  · simp only [gradientEvs, hdirty, if_true, List.mem_append]
    split_ifs <;> simp
  · simp only [gradientEvs, hdirty, if_true, List.mem_append]
    split_ifs <;> simp
  · simp only [gradientEvs, hdirty, if_true, List.mem_append]
    split_ifs <;> simp
  · simp only [gradientEvs, hdirty, if_true, List.mem_append]
    split_ifs <;> simp
  · intro hg
    simp [gradientEvs, hdirty, hg]
  · intro hg
    simp [gradientEvs, hdirty, hg]

/-- C3 witness: the amended theorem applied at a concrete dirty state with
an active gradient fill. -/
theorem brush_gradient_before_rebuild_witness :
    ∃ pre post,
      (Path.brush envNative (mkState gradFillStyle true)).2 = pre ++ post ∧
      Ev.beginPathProxy ∉ pre ∧ Ev.buildPath ∉ pre ∧
      Ev.beginPathCtx ∉ pre ∧ Ev.rebuildPath ∉ pre ∧
      ((pathHasFill (mkState gradFillStyle true).core.style &&
        (mkState gradFillStyle true).core.style.fill.isGradient) = true →
        Ev.updateGradientFill ∈ pre) ∧
      ((pathHasStroke (mkState gradFillStyle true).core.style &&
        (mkState gradFillStyle true).core.style.stroke.isGradient) = true →
        Ev.updateGradientStroke ∈ pre) :=
  brush_gradient_before_rebuild envNative (mkState gradFillStyle true) rfl

/-- C3 counterexample: on a pure cache-hit paint (path not dirty, active
gradient fill), `brush` never invokes the gradient resolver — the
`updateCanvasGradient` call sits inside `if (this.__dirtyPath)`. -/
theorem brush_gradient_cache_hit_counterexample :
    pathHasFill (mkState gradFillStyle false).core.style = true ∧
    (mkState gradFillStyle false).core.style.fill.isGradient = true ∧
    (mkState gradFillStyle false).core.dirtyPath = false ∧
    Ev.updateGradientFill ∉
      (Path.brush envNative (mkState gradFillStyle false)).2 := by
  refine ⟨rfl, rfl, rfl, ?_⟩
  rw [brush_trace_replay envNative (mkState gradFillStyle false) rfl]
  decide

/-- C4 amended: after marking the path geometry-dirty, two consecutive
`brush` calls with no intervening mutation rebuild on the first call
(`buildPath` invoked, `__dirtyPath` cleared) and replay on the second
(`rebuildPath`, no `buildPath`) — PROVIDED the stroke does not require
software dash rendering (dash pattern set, no native `setLineDash`, stroke
active); in that excluded case the second call rebuilds too (see the
counterexample). -/
theorem brush_rebuild_then_replay (env : Env) (s : PathState)
    (hdirty : s.core.dirtyPath = true)
    (hsoft : (s.core.style.lineDash.isSome && !env.ctxHasSetLineDash &&
      pathHasStroke s.core.style) = false) :
    Ev.buildPath ∈ (Path.brush env s).2 ∧
    (Path.brush env s).1.core.dirtyPath = false ∧
    Ev.buildPath ∉ (Path.brush env (Path.brush env s).1).2 ∧
    Ev.rebuildPath ∈ (Path.brush env (Path.brush env s).1).2 := by
  have hcond : rebuildCond env s.core = true := by
    unfold rebuildCond
    rw [hdirty, Bool.true_or]
  have hc2 : rebuildCond env (Path.brush env s).1.core = false := by
    unfold rebuildCond
    rw [brush_core_dirtyPath, brush_core_style, Bool.false_or]
    exact hsoft
  exact ⟨brush_trace_rebuild_mem env s hcond, brush_core_dirtyPath env s,
    (brush_replay_mem env (Path.brush env s).1 hc2).1,
    (brush_replay_mem env (Path.brush env s).1 hc2).2⟩

/-- C4 witness: the amended theorem applied at a concrete dirty
fill-and-stroke state with no dash pattern. -/
theorem brush_rebuild_then_replay_witness :
    Ev.buildPath ∈ (Path.brush envNative (mkState fillStrokeStyle true)).2 ∧
    (Path.brush envNative
      (mkState fillStrokeStyle true)).1.core.dirtyPath = false ∧
    Ev.buildPath ∉ (Path.brush envNative
      (Path.brush envNative (mkState fillStrokeStyle true)).1).2 ∧
    Ev.rebuildPath ∈ (Path.brush envNative
      (Path.brush envNative (mkState fillStrokeStyle true)).1).2 :=
  brush_rebuild_then_replay envNative (mkState fillStrokeStyle true) rfl rfl

/-- C4 counterexample: with a dash pattern set, no native `setLineDash` and
an active stroke, the second consecutive `brush` call invokes `buildPath`
again instead of replaying. -/
theorem brush_second_call_rebuilds_counterexample :
    (mkState dashStrokeStyle true).core.dirtyPath = true ∧
    Ev.buildPath ∈ (Path.brush envSoft (mkState dashStrokeStyle true)).2 ∧
    Ev.buildPath ∈ (Path.brush envSoft
      (Path.brush envSoft (mkState dashStrokeStyle true)).1).2 :=
  ⟨rfl, brush_trace_rebuild_mem envSoft (mkState dashStrokeStyle true) rfl,
    brush_trace_rebuild_mem envSoft
      (Path.brush envSoft (mkState dashStrokeStyle true)).1 rfl⟩

/-- C5: for a stroke-active Path whose transform is absent or the identity,
a cache-miss `getBoundingRect()` returns the raw geometry bounds with width
and height each increased by `max(lineWidth, 5)` and `x`, `y` each decreased
by `max(lineWidth, 5) / 2`. -/
theorem getBoundingRect_stroke_inflate (env : Env) (c : PathCore)
    (hrect : c.rectCache = none)
    (hstroke : pathHasStroke c.style = true)
    (htf : c.transform = none ∨ c.transform = some ⟨1, 0, 0, 1⟩) :
    (getBoundingRectCore env c).1 =
      { x := (env.proxyRect (rectSourceBuf c)).x -
          max (c.style.lineWidth : ℝ) 5 / 2
        y := (env.proxyRect (rectSourceBuf c)).y -
          max (c.style.lineWidth : ℝ) 5 / 2
        width := (env.proxyRect (rectSourceBuf c)).width +
          max (c.style.lineWidth : ℝ) 5
        height := (env.proxyRect (rectSourceBuf c)).height +
          max (c.style.lineWidth : ℝ) 5 } := by
  have hscale : getLineScale c.transform = 1 := by
    rcases htf with h | h <;> rw [h]
    · rfl
    · norm_num [getLineScale]
  simp only [getBoundingRectCore, hrect, hstroke, if_true, hscale, mul_one,
    div_one]

/-- C5 witness: concrete stroke-active core with `lineWidth = 2`, identity
environment rect `(0, 0, 10, 10)`: the result is
`(-5/2, -5/2, 15, 15)` since `max(2, 5) = 5`. -/
theorem getBoundingRect_stroke_inflate_witness :
    (getBoundingRectCore envNative (mkCore fillStrokeStyle true)).1.width = 15 ∧
    (getBoundingRectCore envNative
      (mkCore fillStrokeStyle true)).1.x = -(5 / 2 : ℝ) := by
  have h := getBoundingRect_stroke_inflate envNative
    (mkCore fillStrokeStyle true) rfl rfl (Or.inl rfl)
  rw [h]
  have hpr : envNative.proxyRect (rectSourceBuf (mkCore fillStrokeStyle true)) =
      ⟨0, 0, 10, 10⟩ := rfl
  have hw : ((mkCore fillStrokeStyle true).style.lineWidth : ℝ) = 2 := by
    norm_num [mkCore, fillStrokeStyle]
  rw [hpr, hw, max_eq_right (by norm_num : (2 : ℝ) ≤ 5)]
  constructor <;> norm_num

/-- C6: for a Path with both fill and stroke active and a query point whose
local image lies inside the bounding rect, `contain` returns exactly the
disjunction of the stroke-containment predicate (at effective width
`max(lineWidth * lineScale, 5) / lineScale`) and the fill-containment
predicate, the stroke test being performed first. -/
theorem contain_both_active (env : Env) (s : PathState) (x y : ℝ)
    (hfill : pathHasFill s.core.style = true)
    (hstroke : pathHasStroke s.core.style = true)
    (hin : env.rectContain (getBoundingRectCore env s.core).1
      (env.transformCoordToLocal s.core.transform x y).1
      (env.transformCoordToLocal s.core.transform x y).2 = true) :
    (Path.contain env s x y).1 =
      (env.containStroke (getBoundingRectCore env s.core).2.buffer
        (max ((s.core.style.lineWidth : ℝ) * getLineScale s.core.transform) 5 /
          getLineScale s.core.transform)
        (env.transformCoordToLocal s.core.transform x y).1
        (env.transformCoordToLocal s.core.transform x y).2 ||
      env.containFill (getBoundingRectCore env s.core).2.buffer
        (env.transformCoordToLocal s.core.transform x y).1
        (env.transformCoordToLocal s.core.transform x y).2) := by
  simp only [Path.contain, getBoundingRectCore_style,
    getBoundingRectCore_transform, hin, if_true, hstroke, hfill]
  exact ite_true_or _ _

/-- C6 witness: with a constant-true stroke predicate and constant-false
fill predicate, a point inside the rect of a fill-and-stroke Path is
reported contained (stroke-band-only hit returns true). -/
theorem contain_both_active_witness :
    (Path.contain envNative (mkState fillStrokeStyle true) 0 0).1 = true := by
  have h := contain_both_active envNative (mkState fillStrokeStyle true) 0 0
    rfl rfl rfl
  rw [h]
  rfl

/-- C7: a kind produced by `Path.extend` with a default shape mapping ends
construction with each shape key bound to the construction-options value
when that key was supplied, and to the default value only when it was not.
(Base construction options are modelled from the spec; the merge loop is
from the source.) -/
theorem extend_shape_non_destructive (d opts : ShapeMap) (k : String) :
    extendConstructShape (some d) (some opts) =
      some (mergeShapeDefaults opts d) ∧
    (shapeHasOwn opts k = true →
      shapeGet (mergeShapeDefaults opts d) k = shapeGet opts k) ∧
    (shapeHasOwn opts k = false →
      shapeGet (mergeShapeDefaults opts d) k = shapeGet d k) :=
  ⟨rfl, fun h => mergeShapeDefaults_get_of_hasOwn d opts k h,
    fun h => mergeShapeDefaults_get_of_not_hasOwn d opts k h⟩

/-- C7 witness: `extend({shape: {a: 1}})` constructed with
`{shape: {a: 5}}` yields `shape.a = 5`, not `1`. -/
theorem extend_shape_non_destructive_witness :
    shapeGet (mergeShapeDefaults [("a", 5)] [("a", 1)]) "a" = some 5 := by
  have h := (extend_shape_non_destructive [("a", 1)] [("a", 5)] "a").2.1
    (by decide)
  rw [h]
  rfl

/-- C8: every `dirty` call on a Path whose clip-target back-reference is an
entity `E` also invokes `E.dirty()` (with no arguments), so `E`'s
repaint-dirty flag `__dirty` becomes true in the same operation. -/
theorem dirty_propagates_to_clipTarget (s : PathState) (t : PathCore)
    (arg : Option Bool) (h : s.clipTarget = some t) :
    (Path.dirty s arg).clipTarget = some (dirtyCore t true) ∧
      (dirtyCore t true).dirtyFlag = true := by
  constructor
  · simp [Path.dirty, h]
  · simp [dirtyCore]

/-- C8 witness: the theorem applied at a concrete clip-carrying state. -/
theorem dirty_propagates_to_clipTarget_witness :
    (Path.dirty clipState (some true)).clipTarget =
      some (dirtyCore (mkCore fillOnlyStyle false) true) ∧
      (dirtyCore (mkCore fillOnlyStyle false) true).dirtyFlag = true :=
  dirty_propagates_to_clipTarget clipState (mkCore fillOnlyStyle false)
    (some true) rfl

/-- C9: `setShape` on a Path whose `shape` is absent changes nothing — the
whole state (shape, style, flags, cached rect, refresh notifications) is
returned unchanged, for either argument form. -/
theorem setShape_no_shape_noop (s : PathState) (arg : ShapeArg)
    (h : s.core.shape = none) : Path.setShape s arg = s := by
  simp [Path.setShape, h]

/-- C9 witness: the theorem applied to a concrete shape-less Path. -/
theorem setShape_no_shape_noop_witness :
    Path.setShape sNoShape (ShapeArg.kv "a" 1) = sNoShape :=
  setShape_no_shape_noop sNoShape (ShapeArg.kv "a" 1) rfl

/-- C10: `dirty(false)` on a Path with clip target `E` leaves the Path's own
`__dirtyPath` and cached rect untouched, yet invokes `E.dirty()` with no
arguments, which defaults to a full geometry-dirty marking: `E.__dirtyPath`
is set and `E`'s cached rect is cleared. -/
theorem dirty_false_clipTarget_full_dirty (s : PathState) (t : PathCore)
    (h : s.clipTarget = some t) :
    (Path.dirty s (some false)).core.dirtyPath = s.core.dirtyPath ∧
    (Path.dirty s (some false)).core.rectCache = s.core.rectCache ∧
    (Path.dirty s (some false)).clipTarget = some (dirtyCore t true) ∧
    (dirtyCore t true).dirtyPath = true ∧
    (dirtyCore t true).rectCache = none := by
  refine ⟨?_, ?_, ?_, ?_, ?_⟩ <;> simp [Path.dirty, dirtyCore, h]

/-- C10 witness: the theorem applied at a concrete clip-carrying state. -/
theorem dirty_false_clipTarget_full_dirty_witness :
    (Path.dirty clipState (some false)).core.dirtyPath =
      clipState.core.dirtyPath ∧
    (Path.dirty clipState (some false)).core.rectCache =
      clipState.core.rectCache ∧
    (Path.dirty clipState (some false)).clipTarget =
      some (dirtyCore (mkCore fillOnlyStyle false) true) ∧
    (dirtyCore (mkCore fillOnlyStyle false) true).dirtyPath = true ∧
    (dirtyCore (mkCore fillOnlyStyle false) true).rectCache = none :=
  dirty_false_clipTarget_full_dirty clipState (mkCore fillOnlyStyle false) rfl

end ZPath
